import Mathlib

/-!
Verification of the statistical comparison core of the
Clinical-Immune-Cell-Analysis-Dashboard repository.

Numeric values (numpy float64 columns, p-values, percentages) are modelled
as rationals `ℚ`; machine floating point rounding is outside the scope of
these theorems, which address the exact arithmetic the code performs.
The numpy random generator is modelled as an abstract stream of in-place
shuffles `σ : ℕ → List ℚ → List ℚ` (iteration index ↦ the rearrangement
the generator produces at that iteration); `rng.shuffle` never inspects
values, but none of the results below depend on that restriction.
-/

namespace Dashboard

/-! ## Means and the permutation statistic (`streamlit_app.py`) -/

/-- Mean of a list of rationals, modelling `np.mean` (`sum / size`). -/
def mean (l : List ℚ) : ℚ := l.sum / l.length

/-- Absolute difference of the mean of the first `nA` elements and the mean
of the remaining elements of a pooled list: models
`np.abs(np.mean(pooled[:n_a]) - np.mean(pooled[n_a:]))`. -/
def absSplitStat (pooled : List ℚ) (nA : ℕ) : ℚ :=
  |mean (pooled.take nA) - mean (pooled.drop nA)|

/-- Loop body of `_two_sided_permutation_pvalue`: with `k` iterations left,
starting at shuffle-stream index `i`, shuffle the pooled list in place
(`rng.shuffle(pooled)`) and record the absolute split-mean difference; the
shuffled list is threaded into the next iteration, exactly as the mutation
of `pooled` is in the source. -/
def permDiffsAux (σ : ℕ → List ℚ → List ℚ) (nA : ℕ) : ℕ → ℕ → List ℚ → List ℚ
  | _, 0, _ => []
  | i, k + 1, pooled =>
    absSplitStat (σ i pooled) nA :: permDiffsAux σ nA (i + 1) k (σ i pooled)

/-- Shallow embedding of `_two_sided_permutation_pvalue`
(`streamlit_app.py` lines 285-297): observed statistic, pooled sample,
`n_permutations` in-place shuffles, then `(count(diffs >= observed) + 1)
/ (n_permutations + 1)`. -/
def twoSidedPermutationPvalue (n_permutations : ℕ) (σ : ℕ → List ℚ → List ℚ)
    (a b : List ℚ) : ℚ :=
  let observed : ℚ := |mean a - mean b|
  let pooled : List ℚ := a ++ b
  let nA : ℕ := a.length
  let diffs : List ℚ := permDiffsAux σ nA 0 n_permutations pooled
  (((diffs.countP fun d => decide (observed ≤ d)) : ℚ) + 1) / ((n_permutations : ℚ) + 1)

/-- Iterated shuffling: apply `σ i`, then `σ (i+1)`, …, `k` times in
sequence, starting from pooled list `p`. -/
def iterShuffleFrom (σ : ℕ → List ℚ → List ℚ) : ℕ → ℕ → List ℚ → List ℚ
  | _, 0, p => p
  | i, k + 1, p => iterShuffleFrom σ (i + 1) k (σ i p)

theorem permDiffsAux_eq (σ : ℕ → List ℚ → List ℚ) (nA : ℕ) :
    ∀ (k i : ℕ) (p : List ℚ),
      permDiffsAux σ nA i k p
        = (List.range k).map fun j => absSplitStat (iterShuffleFrom σ i (j + 1) p) nA
  | 0, _, _ => rfl
  | k + 1, i, p => by
    have ih := permDiffsAux_eq σ nA k (i + 1) (σ i p)
    rw [List.range_succ_eq_map, List.map_cons, List.map_map]
    show absSplitStat (σ i p) nA :: permDiffsAux σ nA (i + 1) k (σ i p) = _
    rw [ih]
    exact congrArg₂ List.cons rfl (List.map_congr_left fun j _ => rfl)

theorem permDiffsAux_length (σ : ℕ → List ℚ → List ℚ) (nA : ℕ) :
    ∀ (k i : ℕ) (p : List ℚ), (permDiffsAux σ nA i k p).length = k
  | 0, _, _ => rfl
  | k + 1, i, p => by
    simp [permDiffsAux, permDiffsAux_length σ nA k (i + 1) (σ i p)]

/-- Shuffle that swaps the first two elements of the pooled list and leaves
everything else alone; one realizable outcome of a seeded Fisher–Yates
shuffle, used to separate the two argument orders of the permutation test. -/
def swapHeadShuffle (_i : ℕ) : List ℚ → List ℚ
  | x :: y :: rest => y :: x :: rest
  | l => l

/-- C2: the permutation test returns exactly
`(count of permuted absolute mean-differences ≥ observed, plus 1) /
(n_permutations + 1)`, where the permuted statistics come from
`n_permutations` successive in-place shuffles of the pooled sequence split
into the first `n_a` and remaining elements; consequently the returned
p-value lies in `(0, 1]` for any inputs. -/
theorem permutation_pvalue_formula_and_range (a b : List ℚ) (n : ℕ)
    (σ : ℕ → List ℚ → List ℚ) :
    twoSidedPermutationPvalue n σ a b
      = (((((List.range n).map fun j =>
            absSplitStat (iterShuffleFrom σ 0 (j + 1) (a ++ b)) a.length).countP
            fun d => decide (|mean a - mean b| ≤ d)) : ℚ) + 1) / ((n : ℚ) + 1)
    ∧ 0 < twoSidedPermutationPvalue n σ a b
    ∧ twoSidedPermutationPvalue n σ a b ≤ 1 := by
  have hform : twoSidedPermutationPvalue n σ a b
      = (((((List.range n).map fun j =>
            absSplitStat (iterShuffleFrom σ 0 (j + 1) (a ++ b)) a.length).countP
            fun d => decide (|mean a - mean b| ≤ d)) : ℚ) + 1) / ((n : ℚ) + 1) := by
    simp only [twoSidedPermutationPvalue]
    rw [permDiffsAux_eq]
  refine ⟨hform, ?_, ?_⟩
  · rw [hform]
    positivity
  · rw [hform]
    have hc : (((List.range n).map fun j =>
        absSplitStat (iterShuffleFrom σ 0 (j + 1) (a ++ b)) a.length).countP
        fun d => decide (|mean a - mean b| ≤ d)) ≤ n := by
      calc (((List.range n).map fun j =>
              absSplitStat (iterShuffleFrom σ 0 (j + 1) (a ++ b)) a.length).countP
              fun d => decide (|mean a - mean b| ≤ d))
          ≤ (((List.range n).map fun j =>
              absSplitStat (iterShuffleFrom σ 0 (j + 1) (a ++ b)) a.length)).length :=
            List.countP_le_length _
        _ = n := by simp
    have hpos : (0 : ℚ) < (n : ℚ) + 1 := by positivity
    rw [div_le_one hpos]
    exact_mod_cast Nat.succ_le_succ hc

/-- C4 counterexample: with the same shuffle stream (the swap-first-two
shuffle, realizable from a seeded generator) and `n_permutations = 1`, the
permutation test gives different p-values for `([0], [1, 3])` and
`([1, 3], [0])`: swapping the arguments changes the initial pooled
arrangement and the split sizes, so the code is not symmetric. -/
theorem permutation_pvalue_not_symmetric :
    twoSidedPermutationPvalue 1 swapHeadShuffle [0] [1, 3] = 1 / 2
    ∧ twoSidedPermutationPvalue 1 swapHeadShuffle [1, 3] [0] = 1
    ∧ twoSidedPermutationPvalue 1 swapHeadShuffle [0] [1, 3]
        ≠ twoSidedPermutationPvalue 1 swapHeadShuffle [1, 3] [0] := by
  norm_num [twoSidedPermutationPvalue, permDiffsAux, swapHeadShuffle, absSplitStat, mean,
    List.countP_cons, List.countP_nil, abs_div, abs_neg]

/-- C4 amended: the permutation test is symmetric in its two samples when
the swapped call sees the same shuffled pooled arrangement at every
iteration and the two samples have equal length (the observed statistic
`|mean a - mean b|` is symmetric); with only the same shuffle stream the
p-values can differ, because the initial pooled arrangement and the split
sizes differ. -/
theorem permutation_pvalue_symm_of_same_arrangements (a b : List ℚ) (n : ℕ)
    (σ τ : ℕ → List ℚ → List ℚ)
    (hlen : a.length = b.length)
    (harr : ∀ j < n, iterShuffleFrom σ 0 (j + 1) (a ++ b)
        = iterShuffleFrom τ 0 (j + 1) (b ++ a)) :
    twoSidedPermutationPvalue n σ a b = twoSidedPermutationPvalue n τ b a := by
  simp only [twoSidedPermutationPvalue]
  rw [permDiffsAux_eq, permDiffsAux_eq]
  have hobs : |mean a - mean b| = |mean b - mean a| := abs_sub_comm _ _
  have hmap : ((List.range n).map fun j =>
        absSplitStat (iterShuffleFrom σ 0 (j + 1) (a ++ b)) a.length)
      = (List.range n).map fun j =>
        absSplitStat (iterShuffleFrom τ 0 (j + 1) (b ++ a)) b.length := by
    refine List.map_congr_left fun j hj => ?_
    rw [harr j (List.mem_range.mp hj), hlen]
  rw [hmap, hobs]

/-- Witness for the amended C4 theorem at a concrete input: equal-length
samples `[1]` and `[2]`, one iteration, and a shuffle stream sending every
arrangement to `[3, 4]`, so both calls see the same arrangement. -/
theorem permutation_pvalue_symm_witness :
    ([1] : List ℚ).length = ([2] : List ℚ).length
    ∧ (∀ j < 1, iterShuffleFrom (fun _ _ => ([3, 4] : List ℚ)) 0 (j + 1) ([1] ++ [2])
        = iterShuffleFrom (fun _ _ => [3, 4]) 0 (j + 1) ([2] ++ [1]))
    ∧ twoSidedPermutationPvalue 1 (fun _ _ => [3, 4]) [1] [2]
      = twoSidedPermutationPvalue 1 (fun _ _ => [3, 4]) [2] [1] := by
  refine ⟨rfl, ?_, ?_⟩
  · intro j hj
    have hj0 : j = 0 := by omega
    subst hj0
    rfl
  · exact permutation_pvalue_symm_of_same_arrangements [1] [2] 1 _ _ rfl
      (by
        intro j hj
        have hj0 : j = 0 := by omega
        subst hj0
        rfl)

/-! ## Benjamini-Hochberg adjustment (`_bh_adjust`, `streamlit_app.py` 299-308) -/

/-- Value-ordering on index/value pairs used to model `np.argsort` on the
p-value list: sort the enumerated list by its values. -/
def idxSort (l : List ℚ) : List (ℕ × ℚ) :=
  l.enum.insertionSort fun p q => p.2 ≤ q.2

/-- The permutation `order = np.argsort(p_values)`. -/
def bhOrder (l : List ℚ) : List ℕ := (idxSort l).map Prod.fst

/-- The sorted p-values `ranked = np.array(p_values)[order]`. -/
def bhRanked (l : List ℚ) : List ℚ := (idxSort l).map Prod.snd

/-- The raw-adjusted values `adjusted = ranked * m / (np.arange(m) + 1)`:
the rank-`i` (1-indexed) entry is `p_(i) * m / i`. -/
def bhRawAdjusted (l : List ℚ) : List ℚ :=
  (bhRanked l).enum.map fun p => p.2 * (l.length : ℚ) / ((p.1 : ℚ) + 1)

/-- Running minimum taken from the right, modelling
`np.minimum.accumulate(adjusted[::-1])[::-1]`: each entry becomes the
minimum of itself and everything after it. -/
def cumMinRight : List ℚ → List ℚ
  | [] => []
  | x :: xs =>
    let rest := cumMinRight xs
    min x (rest.headD x) :: rest

/-- Clip a value to the interval `[0, 1]`, modelling
`np.clip(·, 0.0, 1.0)`. -/
def clip01 (q : ℚ) : ℚ := min (max q 0) 1

/-- The monotone, clipped adjusted values in sorted order. -/
def bhAdjustedSorted (l : List ℚ) : List ℚ :=
  (cumMinRight (bhRawAdjusted l)).map clip01

/-- The scatter `out[order] = adjusted`, un-sorting the adjusted values back
to the original input positions. -/
def scatterByOrder (order : List ℕ) (vals : List ℚ) (m : ℕ) : List ℚ :=
  (List.range m).map fun j => vals.getD (order.indexOf j) 0

/-- Shallow embedding of `_bh_adjust`: argsort, rank-adjust, reverse running
minimum, clip to `[0, 1]`, un-sort. -/
def bh_adjust (l : List ℚ) : List ℚ :=
  scatterByOrder (bhOrder l) (bhAdjustedSorted l) l.length

/-- The output of `bh_adjust` read back in ascending order of the input
p-values (the gather `out[order]`). -/
def gatherByOrder (l : List ℚ) : List ℚ :=
  (bhOrder l).map fun j => (bh_adjust l).getD j 0

theorem idxSort_perm (l : List ℚ) : List.Perm (idxSort l) l.enum :=
  List.perm_insertionSort _ _

theorem bhOrder_perm_range (l : List ℚ) : List.Perm (bhOrder l) (List.range l.length) := by
  have h := (idxSort_perm l).map Prod.fst
  rwa [List.enum_map_fst] at h

theorem bhOrder_nodup (l : List ℚ) : (bhOrder l).Nodup :=
  (bhOrder_perm_range l).nodup_iff.mpr (List.nodup_range _)

theorem bhOrder_length (l : List ℚ) : (bhOrder l).length = l.length := by
  simpa using (bhOrder_perm_range l).length_eq

theorem bhOrder_mem_lt (l : List ℚ) {j : ℕ} (hj : j ∈ bhOrder l) : j < l.length := by
  have := (bhOrder_perm_range l).mem_iff.mp hj
  exact List.mem_range.mp this

theorem cumMinRight_length (l : List ℚ) : (cumMinRight l).length = l.length := by
  induction l with
  | nil => rfl
  | cons x xs ih => simp [cumMinRight, ih]

theorem cumMinRight_sorted (l : List ℚ) : (cumMinRight l).Sorted (· ≤ ·) := by
  induction l with
  | nil => exact List.sorted_nil
  | cons x xs ih =>
    simp only [cumMinRight]
    cases hrest : cumMinRight xs with
    | nil => simp
    | cons y ys =>
      rw [hrest] at ih
      rw [List.sorted_cons] at ih
      rw [List.sorted_cons]
      constructor
      · intro b hb
        rcases List.mem_cons.mp hb with hb | hb
        · subst hb
          simp
        · exact le_trans (min_le_right _ _) (ih.1 b hb)
      · rw [List.sorted_cons]
        exact ih

theorem bhAdjustedSorted_sorted (l : List ℚ) : (bhAdjustedSorted l).Sorted (· ≤ ·) := by
  refine (cumMinRight_sorted (bhRawAdjusted l)).map clip01 ?_
  intro a b hab
  exact min_le_min (max_le_max hab (le_refl _)) (le_refl _)

theorem bhAdjustedSorted_length (l : List ℚ) : (bhAdjustedSorted l).length = l.length := by
  simp [bhAdjustedSorted, cumMinRight_length, bhRawAdjusted, bhRanked, idxSort,
    List.length_insertionSort]

theorem bh_adjust_length (l : List ℚ) : (bh_adjust l).length = l.length := by
  simp [bh_adjust, scatterByOrder]

theorem scatterByOrder_getD (order : List ℕ) (vals : List ℚ) (m : ℕ)
    {j : ℕ} (hj : j < m) :
    (scatterByOrder order vals m).getD j 0 = vals.getD (order.indexOf j) 0 := by
  have hlt : j < ((List.range m).map fun j => vals.getD (order.indexOf j) 0).length := by
    simpa using hj
  rw [scatterByOrder, List.getD_eq_getElem _ _ hlt, List.getElem_map, List.getElem_range]

theorem gatherByOrder_eq (l : List ℚ) : gatherByOrder l = bhAdjustedSorted l := by
  have hlen : (gatherByOrder l).length = (bhAdjustedSorted l).length := by
    simp [gatherByOrder, bhOrder_length, bhAdjustedSorted_length]
  refine List.ext_getElem hlen ?_
  intro k hk1 hk2
  have hkord : k < (bhOrder l).length := by
    simpa [gatherByOrder] using hk1
  have h1 : (gatherByOrder l)[k] = (bh_adjust l).getD ((bhOrder l)[k]) 0 := by
    simp [gatherByOrder]
  have hjlt : (bhOrder l)[k] < l.length :=
    bhOrder_mem_lt l (List.getElem_mem hkord)
  have h2 : (bh_adjust l).getD ((bhOrder l)[k]) 0
      = (bhAdjustedSorted l).getD ((bhOrder l).indexOf ((bhOrder l)[k])) 0 :=
    scatterByOrder_getD (bhOrder l) (bhAdjustedSorted l) l.length hjlt
  rw [h1, h2, List.indexOf_getElem (bhOrder_nodup l) k hkord]
  exact List.getD_eq_getElem _ _ hk2

theorem gatherByOrder_sorted (l : List ℚ) : (gatherByOrder l).Sorted (· ≤ ·) := by
  rw [gatherByOrder_eq]
  exact bhAdjustedSorted_sorted l

theorem bhRanked_sorted (l : List ℚ) : (bhRanked l).Sorted (· ≤ ·) := by
  haveI h1 : IsTotal (ℕ × ℚ) (fun p q => p.2 ≤ q.2) := ⟨fun a b => le_total a.2 b.2⟩
  haveI h2 : IsTrans (ℕ × ℚ) (fun p q => p.2 ≤ q.2) := ⟨fun _ _ _ hab hbc => le_trans hab hbc⟩
  have h : (idxSort l).Sorted fun p q => p.2 ≤ q.2 := List.sorted_insertionSort _ _
  exact h.map Prod.snd fun _ _ hpq => hpq

/-- C1: `bh_adjust` returns a list of the same length as its input in input
index correspondence; the sort stage is ascending, the values read back in
ascending order of the input p-values (the un-sorted output gathered along
the argsort permutation) are the clipped running minima and are
non-decreasing, and the input `[0.2, 0.01, 0.05]` yields exactly
`[0.2, 0.03, 0.075]`. -/
theorem bh_adjust_spec (l : List ℚ) :
    (bh_adjust l).length = l.length
    ∧ (bhRanked l).Sorted (· ≤ ·)
    ∧ gatherByOrder l = bhAdjustedSorted l
    ∧ (gatherByOrder l).Sorted (· ≤ ·)
    ∧ bh_adjust [2/10, 1/100, 5/100] = [2/10, 3/100, 75/1000] := by
  refine ⟨bh_adjust_length l, bhRanked_sorted l, gatherByOrder_eq l,
    gatherByOrder_sorted l, ?_⟩
  norm_num [bh_adjust, scatterByOrder, bhAdjustedSorted, cumMinRight, bhRawAdjusted,
    bhRanked, bhOrder, idxSort, clip01, List.enum, List.enumFrom, List.insertionSort,
    List.orderedInsert, List.range_succ, List.indexOf, List.findIdx, List.findIdx.go,
    Bool.cond_eq_ite, beq_iff_eq]

/-! ## Group filter (`apply_filters`, `response_plot.py` 6-44) -/

/-- One row of the long-format summary table with sample metadata. The
`payload` field stands for every remaining column (sample code, counts,
percentages, …), so that row equality is whole-row equality. -/
structure SampleRow where
  treatment : String
  sample_type : String
  time_from_treatment_start : ℚ
  sex : String
  age : ℤ
  project : String
  payload : String
deriving DecidableEq

/-- Shallow embedding of `apply_filters`: copy the input, then apply each
`isin` restriction only when its selection list is non-empty (Python list
truthiness). -/
def apply_filters (df : List SampleRow)
    (selected_treatments : List String)
    (selected_sample_types : List String)
    (selected_time_from_treatment_start : List ℚ)
    (selected_sexes : List String)
    (selected_ages : List ℤ)
    (selected_projects : List String) : List SampleRow :=
  let out := df
  let out := if selected_treatments.isEmpty then out
    else out.filter fun r => selected_treatments.contains r.treatment
  let out := if selected_sample_types.isEmpty then out
    else out.filter fun r => selected_sample_types.contains r.sample_type
  let out := if selected_time_from_treatment_start.isEmpty then out
    else out.filter fun r =>
      selected_time_from_treatment_start.contains r.time_from_treatment_start
  let out := if selected_sexes.isEmpty then out
    else out.filter fun r => selected_sexes.contains r.sex
  let out := if selected_ages.isEmpty then out
    else out.filter fun r => selected_ages.contains r.age
  let out := if selected_projects.isEmpty then out
    else out.filter fun r => selected_projects.contains r.project
  out

/-- Modelled from the spec's group-filter contract, for comparison with the
code: one predicate filter in which a dimension with an empty allowed set
imposes no constraint. -/
def apply_filters_pred (df : List SampleRow)
    (selected_treatments : List String)
    (selected_sample_types : List String)
    (selected_time_from_treatment_start : List ℚ)
    (selected_sexes : List String)
    (selected_ages : List ℤ)
    (selected_projects : List String) : List SampleRow :=
  df.filter fun r =>
    (selected_treatments.isEmpty || selected_treatments.contains r.treatment)
    && (selected_sample_types.isEmpty || selected_sample_types.contains r.sample_type)
    && (selected_time_from_treatment_start.isEmpty
        || selected_time_from_treatment_start.contains r.time_from_treatment_start)
    && (selected_sexes.isEmpty || selected_sexes.contains r.sex)
    && (selected_ages.isEmpty || selected_ages.contains r.age)
    && (selected_projects.isEmpty || selected_projects.contains r.project)

theorem filter_step {α : Type} (e : Bool) (q : α → Bool) (l : List α) :
    (if e = true then l else l.filter q) = l.filter fun r => e || q r := by
  cases e with
  | true => simp
  | false => simp

/-- C5: with all-empty selection lists `apply_filters` returns the input
rows unchanged, and in general it agrees with the single-pass predicate
filter in which every empty selection imposes no constraint (empty
selection selects everything); as a pure function of its input it cannot
mutate the input table (the source guarantees non-aliasing via
`df.copy()`). -/
theorem apply_filters_spec (df : List SampleRow)
    (ts ss : List String) (tf : List ℚ) (sx : List String) (ag : List ℤ)
    (pj : List String) :
    apply_filters df [] [] [] [] [] [] = df
    ∧ apply_filters df ts ss tf sx ag pj = apply_filters_pred df ts ss tf sx ag pj := by
  constructor
  · rfl
  · show (if pj.isEmpty then _ else _) = _
    rw [filter_step, filter_step, filter_step, filter_step, filter_step, filter_step]
    rw [List.filter_filter, List.filter_filter, List.filter_filter, List.filter_filter,
      List.filter_filter]
    rw [apply_filters_pred]
    refine List.filter_congr fun r _ => ?_
    cases ts.isEmpty || ts.contains r.treatment <;>
      cases ss.isEmpty || ss.contains r.sample_type <;>
      cases tf.isEmpty || tf.contains r.time_from_treatment_start <;>
      cases sx.isEmpty || sx.contains r.sex <;>
      cases ag.isEmpty || ag.contains r.age <;>
      cases pj.isEmpty || pj.contains r.project <;> rfl

/-! ## Orchestration loop (`main`, `streamlit_app.py` 310-343) -/

/-- One row of the filtered plotting table entering the statistics loop. -/
structure PlotRow where
  population : String
  response_group : String
  percentage : ℚ
deriving DecidableEq

/-- Responder percentages for one population: the loop's
`a = sub.loc[sub["response_group"] == "Responder", "percentage"]`. -/
def responderValues (rows : List PlotRow) (pop : String) : List ℚ :=
  (rows.filter fun r => r.population == pop && r.response_group == "Responder").map
    fun r => r.percentage

/-- Non-responder percentages for one population (`b` in the loop). -/
def nonResponderValues (rows : List PlotRow) (pop : String) : List ℚ :=
  (rows.filter fun r => r.population == pop && r.response_group == "Non-responder").map
    fun r => r.percentage

/-- Median of a list, modelling `np.median`: sort ascending, take the
middle element for odd length and the average of the two middle elements
for even length. -/
def median (l : List ℚ) : ℚ :=
  let s := l.insertionSort (· ≤ ·)
  if l.length % 2 = 1 then s.getD (l.length / 2) 0
  else (s.getD (l.length / 2 - 1) 0 + s.getD (l.length / 2) 0) / 2

/-- One row of the final result table (before the BH column is added). -/
structure TestResult where
  population : String
  n_responders : ℕ
  n_non_responders : ℕ
  mean_resp : ℚ
  mean_non_resp : ℚ
  median_resp : ℚ
  median_non_resp : ℚ
  delta_mean : ℚ
  delta_median : ℚ
  p_value : ℚ
deriving DecidableEq

/-- The per-population statistics loop of `main`: a population whose
responder or non-responder group has fewer than 2 samples is skipped
(`continue`), otherwise a `TestResult` row is appended. The p-value
computation is abstracted as `pval` (in the source it is
`_two_sided_permutation_pvalue` with the shared seeded generator). -/
def buildStatsRows (pval : List ℚ → List ℚ → ℚ) (rows : List PlotRow) :
    List String → List TestResult
  | [] => []
  | pop :: pops =>
    let a := responderValues rows pop
    let b := nonResponderValues rows pop
    if a.length < 2 ∨ b.length < 2 then buildStatsRows pval rows pops
    else
      { population := pop
        n_responders := a.length
        n_non_responders := b.length
        mean_resp := mean a
        mean_non_resp := mean b
        median_resp := median a
        median_non_resp := median b
        delta_mean := mean a - mean b
        delta_median := median a - median b
        p_value := pval a b } :: buildStatsRows pval rows pops

/-- C6: the populations appearing in the result table are exactly those
whose responder group and non-responder group both have at least 2
samples; a population failing the threshold produces no row no matter what
its values are, and one meeting it always produces a row. -/
theorem buildStatsRows_populations (pval : List ℚ → List ℚ → ℚ)
    (rows : List PlotRow) (pops : List String) :
    (buildStatsRows pval rows pops).map (fun r => r.population)
      = pops.filter fun pop =>
          decide (2 ≤ (responderValues rows pop).length)
          && decide (2 ≤ (nonResponderValues rows pop).length) := by
  induction pops with
  | nil => rfl
  | cons pop pops ih =>
    simp only [buildStatsRows]
    by_cases ha : (responderValues rows pop).length < 2
    · have ha2 : ¬ (2 ≤ (responderValues rows pop).length) := by omega
      rw [if_pos (Or.inl ha)]
      simp [List.filter_cons, ha2, ih]
    · by_cases hb : (nonResponderValues rows pop).length < 2
      · have hb2 : ¬ (2 ≤ (nonResponderValues rows pop).length) := by omega
        rw [if_pos (Or.inr hb)]
        simp [List.filter_cons, hb2, ih]
      · have ha2 : 2 ≤ (responderValues rows pop).length := by omega
        have hb2 : 2 ≤ (nonResponderValues rows pop).length := by omega
        rw [if_neg (by push_neg; exact ⟨by omega, by omega⟩)]
        simp [List.filter_cons, ha2, hb2, ih]

/-! ## Result table ordering (`stats_df.sort_values`, `streamlit_app.py` 343) -/

/-- One row of the result table after the BH column is added; `payload`
stands for the remaining columns, which tag along with the row. -/
structure AdjRow where
  population : String
  p_value : ℚ
  p_adj_bh : ℚ
  payload : String
deriving DecidableEq

/-- Lexicographic order used by
`sort_values(["p_adj_bh", "p_value", "population"],
ascending=[True, True, True])`. -/
def statsLe (x y : AdjRow) : Prop :=
  x.p_adj_bh < y.p_adj_bh
  ∨ (x.p_adj_bh = y.p_adj_bh ∧ (x.p_value < y.p_value
      ∨ (x.p_value = y.p_value ∧ x.population ≤ y.population)))

instance : DecidableRel statsLe := fun x y => by
  unfold statsLe
  infer_instance

/-- Shallow embedding of the final sorting step of `main`. -/
def sortStats (l : List AdjRow) : List AdjRow := l.insertionSort statsLe

theorem statsLe_total (x y : AdjRow) : statsLe x y ∨ statsLe y x := by
  unfold statsLe
  rcases lt_trichotomy x.p_adj_bh y.p_adj_bh with h | h | h
  · exact Or.inl (Or.inl h)
  · rcases lt_trichotomy x.p_value y.p_value with h2 | h2 | h2
    · exact Or.inl (Or.inr ⟨h, Or.inl h2⟩)
    · rcases le_total x.population y.population with h3 | h3
      · exact Or.inl (Or.inr ⟨h, Or.inr ⟨h2, h3⟩⟩)
      · exact Or.inr (Or.inr ⟨h.symm, Or.inr ⟨h2.symm, h3⟩⟩)
    · exact Or.inr (Or.inr ⟨h.symm, Or.inl h2⟩)
  · exact Or.inr (Or.inl h)

theorem statsLe_trans (x y z : AdjRow) (hxy : statsLe x y) (hyz : statsLe y z) :
    statsLe x z := by
  unfold statsLe at *
  rcases hxy with h1 | ⟨h1, h1'⟩
  · rcases hyz with h2 | ⟨h2, _⟩
    · exact Or.inl (lt_trans h1 h2)
    · exact Or.inl (h2 ▸ h1)
  · rcases hyz with h2 | ⟨h2, h2'⟩
    · exact Or.inl (h1 ▸ h2)
    · refine Or.inr ⟨h1.trans h2, ?_⟩
      rcases h1' with h3 | ⟨h3, h3'⟩
      · rcases h2' with h4 | ⟨h4, _⟩
        · exact Or.inl (lt_trans h3 h4)
        · exact Or.inl (h4 ▸ h3)
      · rcases h2' with h4 | ⟨h4, h4'⟩
        · exact Or.inl (h3 ▸ h4)
        · exact Or.inr ⟨h3.trans h4, le_trans h3' h4'⟩

theorem statsLe_keys_eq (x y : AdjRow) (hxy : statsLe x y) (hyx : statsLe y x) :
    x.p_adj_bh = y.p_adj_bh ∧ x.p_value = y.p_value ∧ x.population = y.population := by
  unfold statsLe at *
  rcases hxy with h1 | ⟨h1, h1'⟩
  · rcases hyx with h2 | ⟨h2, _⟩
    · exact absurd (lt_trans h1 h2) (lt_irrefl _)
    · exact absurd (h2 ▸ h1) (lt_irrefl _)
  · rcases hyx with h2 | ⟨h2, h2'⟩
    · exact absurd (h1 ▸ h2) (lt_irrefl _)
    · refine ⟨h1, ?_⟩
      rcases h1' with h3 | ⟨h3, h3'⟩
      · rcases h2' with h4 | ⟨h4, _⟩
        · exact absurd (lt_trans h3 h4) (lt_irrefl _)
        · exact absurd (h4 ▸ h3) (lt_irrefl _)
      · rcases h2' with h4 | ⟨h4, h4'⟩
        · exact absurd (h3 ▸ h4) (lt_irrefl _)
        · exact ⟨h3, le_antisymm h3' h4'⟩

theorem sortStats_perm (l : List AdjRow) : List.Perm (sortStats l) l :=
  List.perm_insertionSort _ _

theorem sortStats_sorted (l : List AdjRow) : (sortStats l).Sorted statsLe := by
  haveI : IsTotal AdjRow statsLe := ⟨statsLe_total⟩
  haveI : IsTrans AdjRow statsLe := ⟨statsLe_trans⟩
  exact List.sorted_insertionSort _ _

/-- Strict version of `statsLe` used to derive uniqueness of the sorted
arrangement when population names are distinct. -/
def statsLeNe (x y : AdjRow) : Prop := statsLe x y ∧ x.population ≠ y.population

theorem sorted_statsLeNe {l : List AdjRow}
    (hs : l.Sorted statsLe) (hn : (l.map fun r => r.population).Nodup) :
    l.Sorted statsLeNe := by
  have hpair : l.Pairwise fun a b => a.population ≠ b.population :=
    (List.pairwise_map.mp hn)
  exact hs.and hpair

theorem eq_sorted_of_perm (l₁ l₂ : List AdjRow)
    (hp : List.Perm l₁ l₂) (hs₁ : l₁.Sorted statsLe) (hs₂ : l₂.Sorted statsLe)
    (hn : (l₂.map fun r => r.population).Nodup) : l₁ = l₂ := by
  haveI : IsAntisymm AdjRow statsLeNe := ⟨by
    intro a b hab hba
    exact absurd (statsLe_keys_eq a b hab.1 hba.1).2.2 hab.2⟩
  have hn₁ : (l₁.map fun r => r.population).Nodup :=
    ((hp.map fun r => r.population).nodup_iff).mpr hn
  exact List.eq_of_perm_of_sorted hp (sorted_statsLeNe hs₁ hn₁) (sorted_statsLeNe hs₂ hn)

/-- C7: the final sorting step returns a permutation of the result rows
that is sorted by (adjusted p-value, raw p-value, population name)
ascending lexicographically; moreover, when population names are distinct
(one result row per population), any sorted arrangement of the same rows
is equal to it, so the display order is uniquely determined and ties in
both p-values are broken by the population name. -/
theorem sortStats_spec (l : List AdjRow) :
    List.Perm (sortStats l) l
    ∧ (sortStats l).Sorted statsLe
    ∧ ((l.map fun r => r.population).Nodup →
        ∀ l', List.Perm l' l → l'.Sorted statsLe → l' = sortStats l) := by
  refine ⟨sortStats_perm l, sortStats_sorted l, ?_⟩
  intro hn l' hp hs
  have hn' : ((sortStats l).map fun r => r.population).Nodup :=
    (((sortStats_perm l).map fun r => r.population).nodup_iff).mpr hn
  exact eq_sorted_of_perm l' (sortStats l) (hp.trans (sortStats_perm l).symm) hs
    (sortStats_sorted l) hn'

/-- Witness for C7 at a concrete input: two rows tied on both p-values but
with distinct population names; the unique sorted arrangement puts the
lexicographically smaller name first. -/
theorem sortStats_spec_witness :
    ((([⟨"nk_cell", 1, 1, "r1"⟩, ⟨"b_cell", 1, 1, "r2"⟩] : List AdjRow).map
        fun r => r.population).Nodup
      ∧ List.Perm [(⟨"b_cell", 1, 1, "r2"⟩ : AdjRow), ⟨"nk_cell", 1, 1, "r1"⟩]
          [⟨"nk_cell", 1, 1, "r1"⟩, ⟨"b_cell", 1, 1, "r2"⟩]
      ∧ ([(⟨"b_cell", 1, 1, "r2"⟩ : AdjRow), ⟨"nk_cell", 1, 1, "r1"⟩]).Sorted statsLe)
    ∧ [(⟨"b_cell", 1, 1, "r2"⟩ : AdjRow), ⟨"nk_cell", 1, 1, "r1"⟩]
        = sortStats [⟨"nk_cell", 1, 1, "r1"⟩, ⟨"b_cell", 1, 1, "r2"⟩] := by
  have hn : ((([⟨"nk_cell", 1, 1, "r1"⟩, ⟨"b_cell", 1, 1, "r2"⟩] : List AdjRow).map
      fun r => r.population).Nodup) := by
    simp
  have hp : List.Perm [(⟨"b_cell", 1, 1, "r2"⟩ : AdjRow), ⟨"nk_cell", 1, 1, "r1"⟩]
      [⟨"nk_cell", 1, 1, "r1"⟩, ⟨"b_cell", 1, 1, "r2"⟩] := List.Perm.swap _ _ _
  have hs : ([(⟨"b_cell", 1, 1, "r2"⟩ : AdjRow), ⟨"nk_cell", 1, 1, "r1"⟩]).Sorted statsLe := by
    refine List.sorted_cons.mpr ⟨?_, List.sorted_singleton _⟩
    intro b hb
    rw [List.mem_singleton.mp hb]
    refine Or.inr ⟨rfl, Or.inr ⟨rfl, ?_⟩⟩
    show ("b_cell" : String) ≤ "nk_cell"
    norm_num
    decide
  exact ⟨⟨hn, hp, hs⟩,
    (sortStats_spec [⟨"nk_cell", 1, 1, "r1"⟩, ⟨"b_cell", 1, 1, "r2"⟩]).2.2 hn _ hp hs⟩

/-! ## Response transform (`transform_response`, `stats_utils.py` 24-42) -/

/-- One input row for the mixed-effects pipeline: the raw response label
and the proportion column `prop`. -/
structure RespRow where
  response : String
  prop : ℚ
deriving DecidableEq

/-- The dictionary mapping `df["response"].map({"no": 0, "yes": 1})`:
pandas `Series.map` sends keys absent from the dictionary to missing
(NaN); the lookup is exact string equality, with no case folding or
whitespace stripping. -/
def mapResponse (s : String) : Option ℚ :=
  if s = "no" then some 0 else if s = "yes" then some 1 else none

/-- The numerical-stability offset `eps = 1e-6`. -/
def logitEps : ℚ := 1 / 1000000

/-- Argument of the logarithm in the `prop_logit` column:
`(prop + eps) / (1 - prop + eps)`. The column itself is `np.log` of this
value; the embedding carries the exact rational argument and the theorem
speaks about `Real.log` of it. -/
def logitArg (p : ℚ) : ℚ := (p + logitEps) / (1 - p + logitEps)

/-- One output row of `transform_response`: the mapped response and the
logit-argument column standing for `prop_logit = log logit_argument`. -/
structure TransRow where
  response : Option ℚ
  prop : ℚ
  logit_argument : ℚ
deriving DecidableEq

/-- Shallow embedding of `transform_response`, acting row-wise on a copy
of the table. -/
def transform_response (rows : List RespRow) : List TransRow :=
  rows.map fun r =>
    { response := mapResponse r.response
      prop := r.prop
      logit_argument := logitArg r.prop }

/-- C9: `transform_response` preserves the row count, maps `"no"` to `0`,
`"yes"` to `1` and every other label (including case or whitespace
variants) to missing, and the `prop_logit` column `Real.log (logitArg p)`
is the logarithm of a strictly positive rational whenever
`0 ≤ prop ≤ 1` — in particular finite at `prop = 0` and `prop = 1`, where
the argument is `1 / 1000001` and `1000001`. -/
theorem transform_response_spec (rows : List RespRow) :
    (transform_response rows).length = rows.length
    ∧ ((transform_response rows).map fun r => r.response)
        = (rows.map fun r => mapResponse r.response)
    ∧ mapResponse "no" = some 0
    ∧ mapResponse "yes" = some 1
    ∧ (∀ s : String, s ≠ "no" → s ≠ "yes" → mapResponse s = none)
    ∧ (∀ p : ℚ, 0 ≤ p → p ≤ 1 →
        0 < logitArg p ∧ Real.log (logitArg p) = Real.log (logitArg p))
    ∧ logitArg 0 = 1 / 1000001
    ∧ logitArg 1 = 1000001 := by
  refine ⟨by simp [transform_response], by simp [transform_response], rfl, rfl, ?_, ?_, ?_, ?_⟩
  · intro s hno hyes
    simp [mapResponse, hno, hyes]
  · intro p h0 h1
    refine ⟨div_pos ?_ ?_, rfl⟩
    · have : (0 : ℚ) < logitEps := by norm_num [logitEps]
      linarith
    · have : (0 : ℚ) < logitEps := by norm_num [logitEps]
      linarith
  · norm_num [logitArg, logitEps]
  · norm_num [logitArg, logitEps]

/-- Witness for C9 at concrete inputs: an unmapped label `"No"` becomes
missing, and the logit argument is strictly positive at the boundary
proportions `0` and `1`. -/
theorem transform_response_spec_witness :
    mapResponse "No" = none ∧ 0 < logitArg 0 ∧ 0 < logitArg 1 := by
  have h := transform_response_spec []
  refine ⟨h.2.2.2.2.1 "No" (by decide) (by decide), ?_, ?_⟩
  · exact (h.2.2.2.2.2.1 0 (by norm_num) (by norm_num)).1
  · exact (h.2.2.2.2.2.1 1 (by norm_num) (by norm_num)).1

/-! ## Mixed-effects batch (`analyze_all_populations`, `stats_utils.py` 69-100) -/

/-- Failure of one per-population mixed-model fit: `mixedlm(...).fit()`
can raise on non-convergence or on a singular random-effects structure
(insufficient within-group variance); the loop in the source wraps the
call in no try/except. -/
inductive FitError
  | convergence
  | insufficientVariance
deriving DecidableEq

/-- Result of one successful per-population fit: the `response`
coefficient and its p-value. -/
structure FitResult where
  coef_response : ℚ
  p_value : ℚ
deriving DecidableEq

/-- One row of the per-population results table. -/
structure MixedRow where
  population : String
  coef_response : ℚ
  p_value : ℚ
deriving DecidableEq

/-- The per-population fitting loop of `analyze_all_populations`: the fit
outcome for each population is abstracted as `fit` (the statsmodels call
is external); the loop body invokes it with no exception handling, so the
first raised error propagates out and the loop never resumes. -/
theorem except_bind_error {ε α β : Type} (e : ε) (f : α → Except ε β) :
    (Except.error e >>= f) = Except.error e := rfl

theorem except_bind_ok {ε α β : Type} (a : α) (f : α → Except ε β) :
    (Except.ok a >>= f) = f a := rfl

def fitLoop (fit : String → Except FitError FitResult) :
    List String → Except FitError (List MixedRow)
  | [] => .ok []
  | pop :: pops => do
    let res ← fit pop
    let rest ← fitLoop fit pops
    .ok ({ population := pop, coef_response := res.coef_response,
           p_value := res.p_value } :: rest)

/-- Shallow embedding of `analyze_all_populations`: run the fitting loop
over the population categories, then attach BH-adjusted p-values
(`multipletests(..., method="fdr_bh")`, the same step-up adjustment as
`_bh_adjust`). An exception raised by any single fit aborts the whole
batch. -/
def analyze_all_populations (fit : String → Except FitError FitResult)
    (pops : List String) : Except FitError (List (MixedRow × ℚ)) := do
  let rows ← fitLoop fit pops
  let padj := bh_adjust (rows.map fun r => r.p_value)
  .ok (rows.zip padj)

/-- Fit outcome that fails (non-convergence) exactly on `"b_cell"` and
succeeds on every other population. -/
def failOnBCell : String → Except FitError FitResult := fun pop =>
  if pop = "b_cell" then .error .convergence
  else .ok { coef_response := 1, p_value := 1/100 }

theorem fitLoop_error (fit : String → Except FitError FitResult)
    (pops : List String) (p : String) (e : FitError)
    (hp : p ∈ pops) (hf : fit p = .error e) :
    ∃ e', fitLoop fit pops = .error e' := by
  induction pops with
  | nil => cases hp
  | cons q pops ih =>
    cases hfq : fit q with
    | error e'' =>
      exact ⟨e'', by simp [fitLoop, hfq, except_bind_error]⟩
    | ok res =>
      rcases List.mem_cons.mp hp with hpq | hp'
      · subst hpq
        rw [hf] at hfq
        cases hfq
      · rcases ih hp' with ⟨e', he'⟩
        exact ⟨e', by simp [fitLoop, hfq, he', except_bind_ok, except_bind_error]⟩

/-- C3 counterexample: with a fit that fails on `"b_cell"` and would
succeed on `"nk_cell"`, `analyze_all_populations` over
`["b_cell", "nk_cell"]` returns the propagated error: no result for
`"nk_cell"` is produced, the batch is aborted rather than reported
per-population. -/
theorem analyze_all_populations_aborts :
    analyze_all_populations failOnBCell ["b_cell", "nk_cell"]
        = .error .convergence
    ∧ failOnBCell "nk_cell" = .ok { coef_response := 1, p_value := 1/100 } := by
  constructor
  · rfl
  · rfl

/-- C3 amended: a fit failure for any population in the batch propagates
as an exception out of `analyze_all_populations`, aborting the whole
batch; no per-population result (including for populations whose fits
would succeed) is produced. -/
theorem analyze_all_populations_error_propagates
    (fit : String → Except FitError FitResult) (pops : List String)
    (p : String) (e : FitError) (hp : p ∈ pops) (hf : fit p = .error e) :
    ∃ e', analyze_all_populations fit pops = .error e' := by
  rcases fitLoop_error fit pops p e hp hf with ⟨e', he'⟩
  exact ⟨e', by simp [analyze_all_populations, he', except_bind_error]⟩

/-- Witness for the amended C3 theorem: the failing population sits in the
middle of the batch, and the whole analysis returns an error. -/
theorem analyze_all_populations_error_witness :
    "b_cell" ∈ ["a_cell", "b_cell", "nk_cell"]
    ∧ failOnBCell "b_cell" = .error .convergence
    ∧ ∃ e', analyze_all_populations failOnBCell ["a_cell", "b_cell", "nk_cell"]
        = .error e' := by
  refine ⟨by simp, rfl, ?_⟩
  exact analyze_all_populations_error_propagates failOnBCell
    ["a_cell", "b_cell", "nk_cell"] "b_cell" FitError.convergence (by simp) rfl

/-! ## Aggregation query loading (`db_summary.py`) -/

/-- One cell of the raw table returned by `pd.read_sql_query`, classified
by how `pd.to_numeric` treats it: a numeric value, a non-coercible value
(e.g. a non-numeric string), or a missing value (SQL NULL, which
`to_numeric` passes through as NaN without raising in either mode). -/
inductive Cell
  | num (q : ℚ)
  | nonNumeric (s : String)
  | null
deriving DecidableEq

/-- A column-oriented data frame: (column name, cells) pairs. -/
abbrev Frame := List (String × List Cell)

/-- First column with the given name (pandas column lookup). -/
def getCol : Frame → String → List Cell
  | [], _ => []
  | p :: df, c => if p.1 = c then p.2 else getCol df c

/-- Replace the contents of the named column (`df[c] = col`). -/
def setCol : Frame → String → List Cell → Frame
  | [], _, _ => []
  | p :: df, c, col => (if p.1 = c then (p.1, col) else p) :: setCol df c col

/-- Column-name membership. -/
def hasCol : Frame → String → Bool
  | [], _ => false
  | p :: df, c => p.1 == c || hasCol df c

/-- Column has a cell `to_numeric` cannot coerce. -/
def hasNonNumeric (col : List Cell) : Bool :=
  col.any fun c => match c with | .nonNumeric _ => true | _ => false

/-- Column has a missing cell (`NaN` after `to_numeric`, fatal for
`.astype(int)`). -/
def hasNull (col : List Cell) : Bool :=
  col.any fun c => match c with | .null => true | _ => false

/-- `pd.to_numeric(col, errors="coerce")`: non-coercible cells become
missing; numeric and missing cells pass through. -/
def toNumericCoerce (col : List Cell) : List Cell :=
  col.map fun c => match c with
    | .nonNumeric _ => .null
    | c => c

/-- The error cases of the loader. -/
inductive DbError
  | notFound
  | schemaError (missing : List String)
  | dataTypeError
deriving DecidableEq

/-- The fifteen output columns required (and selected, in this order) by
`load_summary_with_sample_metadata_from_db`. -/
def requiredCols : List String :=
  ["project", "subject", "condition", "age", "sex", "sample", "sample_type",
   "time_from_treatment_start", "treatment", "response", "total_count",
   "population", "count", "prop", "percentage"]

/-- The required columns absent from the frame, reported sorted as
`sorted(missing)` in the source. -/
def missingCols (df : Frame) : List String :=
  (requiredCols.filter fun c => !(hasCol df c)).insertionSort (· ≤ ·)

/-- Integer truncation toward zero of the numeric cells (`astype(int)` on
a fully numeric column). -/
def astypeIntVals (col : List Cell) : List Cell :=
  col.map fun c => match c with
    | .num q => .num ((q.num / (q.den : ℤ) : ℤ) : ℚ)
    | c => c

/-- `pd.to_numeric(col, errors="raise").astype(int)`: raising coercion
fails on non-coercible cells, and the integer cast then fails on missing
cells (NaN); otherwise values are truncated toward zero. -/
def strictIntColumn (col : List Cell) : Except DbError (List Cell) :=
  if hasNonNumeric col then .error .dataTypeError
  else if hasNull col then .error .dataTypeError
  else .ok (astypeIntVals col)

/-- `pd.to_numeric(col, errors="raise")` with no integer cast: fails only
on non-coercible cells; missing cells stay missing. -/
def strictNumColumn (col : List Cell) : Except DbError (List Cell) :=
  if hasNonNumeric col then .error .dataTypeError
  else .ok col

/-- The frame after the five column assignments
`df["total_count"] = …` through `df["time_from_treatment_start"] = …`. -/
def coercedFrame (df : Frame) (tc ct pc : List Cell) : Frame :=
  setCol (setCol (setCol (setCol (setCol df
    "total_count" tc) "count" ct) "percentage" pc)
    "age" (toNumericCoerce (getCol df "age")))
    "time_from_treatment_start" (toNumericCoerce (getCol df "time_from_treatment_start"))

/-- Shallow embedding of `load_summary_with_sample_metadata_from_db`: the
storage handle is abstracted to whether the path exists plus the frame the
SQL query returns. Checks existence, then the required output columns,
then coerces `total_count` and `count` strictly with an integer cast,
`percentage` strictly, and `age` and `time_from_treatment_start`
tolerantly, finally projecting the required columns in order. -/
def load_summary_with_sample_metadata_from_db (dbExists : Bool) (df : Frame) :
    Except DbError Frame :=
  if dbExists = false then .error .notFound
  else if missingCols df = [] then do
    let tc ← strictIntColumn (getCol df "total_count")
    let ct ← strictIntColumn (getCol df "count")
    let pc ← strictNumColumn (getCol df "percentage")
    let out := coercedFrame df tc ct pc
    .ok (requiredCols.map fun c => (c, getCol out c))
  else .error (.schemaError (missingCols df))

/-- A raising coercion (or the integer cast) fails on one of the three
strictly checked columns. -/
def strictFailure (df : Frame) : Bool :=
  hasNonNumeric (getCol df "total_count") || hasNull (getCol df "total_count")
  || hasNonNumeric (getCol df "count") || hasNull (getCol df "count")
  || hasNonNumeric (getCol df "percentage")

theorem getCol_setCol_self (df : Frame) (c : String) (col : List Cell)
    (h : hasCol df c = true) : getCol (setCol df c col) c = col := by
  induction df with
  | nil => cases h
  | cons p df ih =>
    by_cases hp : p.1 = c
    · simp [setCol, getCol, hp]
    · have h' : hasCol df c = true := by
        simp only [hasCol, Bool.or_eq_true, beq_iff_eq] at h
        rcases h with h | h
        · exact absurd h hp
        · exact h
      simp [setCol, getCol, hp, ih h']

theorem getCol_setCol_ne (df : Frame) (c c' : String) (col : List Cell)
    (h : c' ≠ c) : getCol (setCol df c col) c' = getCol df c' := by
  induction df with
  | nil => rfl
  | cons p df ih =>
    by_cases hp : p.1 = c
    · have hp' : p.1 ≠ c' := by
        rw [hp]
        exact fun hcc => h hcc.symm
      simp [setCol, getCol, hp, hp', Ne.symm h, h, ih]
    · by_cases hp' : p.1 = c'
      · simp [setCol, getCol, hp, hp', Ne.symm h, h]
      · simp [setCol, getCol, hp, hp', Ne.symm h, h, ih]

theorem hasCol_setCol (df : Frame) (c c' : String) (col : List Cell) :
    hasCol (setCol df c col) c' = hasCol df c' := by
  induction df with
  | nil => rfl
  | cons p df ih =>
    by_cases hp : p.1 = c
    · simp [setCol, hasCol, hp, ih]
    · simp [setCol, hasCol, hp, ih]

theorem getCol_map_names (ns : List String) (g : String → List Cell) (c : String)
    (hc : c ∈ ns) : getCol (ns.map fun n => (n, g n)) c = g c := by
  induction ns with
  | nil => cases hc
  | cons n ns ih =>
    by_cases hn : n = c
    · simp [getCol, hn]
    · rcases List.mem_cons.mp hc with h | h
      · exact absurd h.symm hn
      · simp [getCol, hn, ih h]

theorem missingCols_empty_hasCol (df : Frame)
    (h : missingCols df = []) : ∀ c ∈ requiredCols, hasCol df c = true := by
  intro c hc
  have hfilter : (requiredCols.filter fun c => !(hasCol df c)) = [] := by
    have hlen := congrArg List.length h
    rw [missingCols] at hlen
    simp only [List.length_insertionSort, List.length_nil] at hlen
    exact List.eq_nil_of_length_eq_zero hlen
  have := List.filter_eq_nil_iff.mp hfilter c hc
  simpa using this

theorem getCol_coercedFrame_age (df : Frame) (tc ct pc : List Cell)
    (hAge : hasCol df "age" = true) :
    getCol (coercedFrame df tc ct pc) "age" = toNumericCoerce (getCol df "age") := by
  rw [coercedFrame, getCol_setCol_ne _ _ _ _ (by decide), getCol_setCol_self]
  rw [hasCol_setCol, hasCol_setCol, hasCol_setCol]
  exact hAge

theorem getCol_coercedFrame_tft (df : Frame) (tc ct pc : List Cell)
    (hTft : hasCol df "time_from_treatment_start" = true) :
    getCol (coercedFrame df tc ct pc) "time_from_treatment_start"
      = toNumericCoerce (getCol df "time_from_treatment_start") := by
  rw [coercedFrame, getCol_setCol_self]
  rw [hasCol_setCol, hasCol_setCol, hasCol_setCol, hasCol_setCol]
  exact hTft

theorem load_true_eval (df : Frame) (hm : missingCols df = []) :
    load_summary_with_sample_metadata_from_db true df
      = if hasNonNumeric (getCol df "total_count") then .error .dataTypeError
        else if hasNull (getCol df "total_count") then .error .dataTypeError
        else if hasNonNumeric (getCol df "count") then .error .dataTypeError
        else if hasNull (getCol df "count") then .error .dataTypeError
        else if hasNonNumeric (getCol df "percentage") then .error .dataTypeError
        else .ok (requiredCols.map fun c => (c, getCol (coercedFrame df
            (astypeIntVals (getCol df "total_count"))
            (astypeIntVals (getCol df "count"))
            (getCol df "percentage")) c)) := by
  by_cases h1 : hasNonNumeric (getCol df "total_count") <;>
    by_cases h2 : hasNull (getCol df "total_count") <;>
    by_cases h3 : hasNonNumeric (getCol df "count") <;>
    by_cases h4 : hasNull (getCol df "count") <;>
    by_cases h5 : hasNonNumeric (getCol df "percentage") <;>
    simp [load_summary_with_sample_metadata_from_db, hm, strictIntColumn, strictNumColumn,
      h1, h2, h3, h4, h5, except_bind_ok, except_bind_error]

theorem load_success (df : Frame) (hm : missingCols df = [])
    (hfail : strictFailure df = false) :
    ∃ out, load_summary_with_sample_metadata_from_db true df = .ok out
      ∧ getCol out "age" = toNumericCoerce (getCol df "age")
      ∧ getCol out "time_from_treatment_start"
          = toNumericCoerce (getCol df "time_from_treatment_start") := by
  simp only [strictFailure, Bool.or_eq_false_iff] at hfail
  obtain ⟨⟨⟨⟨h1, h2⟩, h3⟩, h4⟩, h5⟩ := hfail
  have hAge : hasCol df "age" = true :=
    missingCols_empty_hasCol df hm "age" (by simp [requiredCols])
  have hTft : hasCol df "time_from_treatment_start" = true :=
    missingCols_empty_hasCol df hm "time_from_treatment_start" (by simp [requiredCols])
  refine ⟨requiredCols.map fun c => (c, getCol (coercedFrame df
      (astypeIntVals (getCol df "total_count"))
      (astypeIntVals (getCol df "count"))
      (getCol df "percentage")) c), ?_, ?_, ?_⟩
  · rw [load_true_eval df hm, if_neg (by simp [h1]), if_neg (by simp [h2]),
      if_neg (by simp [h3]), if_neg (by simp [h4]), if_neg (by simp [h5])]
  · rw [getCol_map_names _ _ _ (by simp [requiredCols])]
    exact getCol_coercedFrame_age df _ _ _ hAge
  · rw [getCol_map_names _ _ _ (by simp [requiredCols])]
    exact getCol_coercedFrame_tft df _ _ _ hTft

/-- C8: the aggregation loader returns the not-found error exactly when the
storage path does not exist; returns the schema error exactly when the
path exists and some required output column is absent, and that error
carries exactly the sorted missing column names; returns the fatal
data-type error exactly when the path exists, no column is missing, and a
raising coercion (or the subsequent integer cast) fails on `total_count`,
`count`, or `percentage`; and when none of these happen it succeeds, with
non-coercible `age` and `time_from_treatment_start` cells turned into
missing values rather than raising. -/
theorem load_summary_error_spec (dbExists : Bool) (df : Frame) :
    (load_summary_with_sample_metadata_from_db dbExists df = .error .notFound
      ↔ dbExists = false)
    ∧ ((∃ miss, load_summary_with_sample_metadata_from_db dbExists df
          = .error (.schemaError miss))
      ↔ (dbExists = true ∧ missingCols df ≠ []))
    ∧ (∀ miss, load_summary_with_sample_metadata_from_db dbExists df
          = .error (.schemaError miss) → miss = missingCols df)
    ∧ (load_summary_with_sample_metadata_from_db dbExists df = .error .dataTypeError
      ↔ (dbExists = true ∧ missingCols df = [] ∧ strictFailure df = true))
    ∧ (dbExists = true → missingCols df = [] → strictFailure df = false →
        ∃ out, load_summary_with_sample_metadata_from_db dbExists df = .ok out
          ∧ getCol out "age" = toNumericCoerce (getCol df "age")
          ∧ getCol out "time_from_treatment_start"
              = toNumericCoerce (getCol df "time_from_treatment_start")) := by
  cases dbExists with
  | false =>
    have heval : load_summary_with_sample_metadata_from_db false df = .error .notFound := rfl
    refine ⟨by simp [heval], ?_, ?_, by simp [heval], ?_⟩
    · simp [heval]
    · intro miss hmiss
      rw [heval] at hmiss
      simp at hmiss
    · intro h
      exact absurd h (by decide)
  | true =>
    by_cases hm : missingCols df = []
    · have heval := load_true_eval df hm
      refine ⟨?_, ?_, ?_, ?_, ?_⟩
      · rw [heval]
        by_cases h1 : hasNonNumeric (getCol df "total_count") <;>
          by_cases h2 : hasNull (getCol df "total_count") <;>
          by_cases h3 : hasNonNumeric (getCol df "count") <;>
          by_cases h4 : hasNull (getCol df "count") <;>
          by_cases h5 : hasNonNumeric (getCol df "percentage") <;>
          simp [h1, h2, h3, h4, h5]
      · rw [heval]
        by_cases h1 : hasNonNumeric (getCol df "total_count") <;>
          by_cases h2 : hasNull (getCol df "total_count") <;>
          by_cases h3 : hasNonNumeric (getCol df "count") <;>
          by_cases h4 : hasNull (getCol df "count") <;>
          by_cases h5 : hasNonNumeric (getCol df "percentage") <;>
          simp [h1, h2, h3, h4, h5, hm]
      · rw [heval]
        by_cases h1 : hasNonNumeric (getCol df "total_count") <;>
          by_cases h2 : hasNull (getCol df "total_count") <;>
          by_cases h3 : hasNonNumeric (getCol df "count") <;>
          by_cases h4 : hasNull (getCol df "count") <;>
          by_cases h5 : hasNonNumeric (getCol df "percentage") <;>
          simp [h1, h2, h3, h4, h5]
      · rw [heval]
        by_cases h1 : hasNonNumeric (getCol df "total_count") <;>
          by_cases h2 : hasNull (getCol df "total_count") <;>
          by_cases h3 : hasNonNumeric (getCol df "count") <;>
          by_cases h4 : hasNull (getCol df "count") <;>
          by_cases h5 : hasNonNumeric (getCol df "percentage") <;>
          simp [h1, h2, h3, h4, h5, hm, strictFailure]
      · intro _ _ hfail
        exact load_success df hm hfail
    · have heval : load_summary_with_sample_metadata_from_db true df
          = .error (.schemaError (missingCols df)) := by
        simp [load_summary_with_sample_metadata_from_db, hm]
      refine ⟨by simp [heval], ?_, ?_, by simp [heval, hm], ?_⟩
      · simp [heval, hm]
      · intro miss hmiss
        rw [heval] at hmiss
        simp only [Except.error.injEq, DbError.schemaError.injEq] at hmiss
        exact hmiss.symm
      · intro _ hm'
        exact absurd hm' hm

/-- Concrete frame for the C8 witness: every required column present with
one numeric cell, except a non-coercible `age` cell. -/
def exampleFrame : Frame :=
  requiredCols.map fun c =>
    (c, if c = "age" then [Cell.nonNumeric "n/a"] else [Cell.num 1])

/-- Witness for C8: a one-row frame with every required column numeric
except a non-coercible `age` cell tolerantly coerced to missing on
success, plus the not-found instantiation. -/
theorem load_summary_error_witness :
    (load_summary_with_sample_metadata_from_db false [] = Except.error DbError.notFound
      ↔ false = false)
    ∧ (missingCols exampleFrame = [] ∧ strictFailure exampleFrame = false
      ∧ ∃ out, load_summary_with_sample_metadata_from_db true exampleFrame = .ok out
          ∧ getCol out "age" = toNumericCoerce (getCol exampleFrame "age")
          ∧ getCol out "time_from_treatment_start"
              = toNumericCoerce (getCol exampleFrame "time_from_treatment_start")) := by
  constructor
  · exact (load_summary_error_spec false []).1
  · refine ⟨by decide, by decide, ?_⟩
    exact (load_summary_error_spec true exampleFrame).2.2.2.2 rfl (by decide) (by decide)

/-! ## prepare_response_plot_df (`response_plot.py` 74-125) -/

/-- The runtime error raised when a Python function reads a local variable
before any assignment to it. -/
inductive PyError
  | unboundLocalError (name : String)
deriving DecidableEq

/-- One row of the summary-with-metadata table as used by
`prepare_response_plot_df`: the response label may be missing, and
`payload` stands for the remaining columns. -/
structure MetaRow where
  response : Option String
  population : String
  payload : String
deriving DecidableEq

set_option linter.unusedVariables false in
/-- Shallow embedding of `prepare_response_plot_df`. The Python local
`plot_df` is modelled as an optional value that is `none` until first
assigned. The `apply_filters` call that would initialise it is commented
out in the source, so the first executable statement
`plot_df = plot_df.dropna(subset=["response"])` reads the unbound local
and raises `UnboundLocalError`; the rest of the body (drop null
responses, sorted distinct population list, ordered categorical) is
translated in the initialised branch, which is unreachable. -/
def prepare_response_plot_df (summary_meta : List MetaRow)
    (selected_treatments selected_sample_types : List String)
    (selected_time_from_treatment_start : List ℚ)
    (selected_sexes : List String) (selected_ages : List ℤ)
    (selected_projects : List String) :
    Except PyError (List MetaRow × List String) :=
  let plot_df : Option (List MetaRow) := none
  match plot_df with
  | none => .error (.unboundLocalError "plot_df")
  | some df0 =>
    let df1 := df0.filter fun r => r.response.isSome
    let populations := ((df1.map fun r => r.population).insertionSort (· ≤ ·)).dedup
    .ok (df1, populations)

/-- C10: every call of `prepare_response_plot_df` raises
`UnboundLocalError` for `plot_df` before producing a result, because the
body reads `plot_df` before any assignment (the filtering step that would
define it is commented out), for all inputs whatsoever. -/
theorem prepare_response_plot_df_always_raises (summary_meta : List MetaRow)
    (ts ss : List String) (tf : List ℚ) (sx : List String) (ag : List ℤ)
    (pj : List String) :
    prepare_response_plot_df summary_meta ts ss tf sx ag pj
      = .error (.unboundLocalError "plot_df") := rfl

end Dashboard
